import Mathlib

/-!
Shallow embedding of the asynchronous OSM→DXF conversion job orchestrator
of `server/routes/osm.js` (job registry, progress classifier, interpreter
locator, job launcher, history log, reaper), together with proofs of the
specification's testable properties.

External effects are captured in an explicit environment (`ConvEnv`):
file-existence checks, the probe outcomes of candidate interpreters, the
subprocess stdout chunks, its exit event and stderr text, the output
artifact check and the statistics side-file content.  The asynchronous
`performConversion` task is a total function from that environment to the
final job record, and `conversionTrace` lists every observable state of
the record as the task mutates it in place.
-/

namespace OsmConvert

/-- The four values taken by the `status` string field of a job
(osm.js line 40: `pending, processing, completed, error`). -/
inductive Status where
  | pending
  | processing
  | completed
  | error
deriving DecidableEq, Repr

/-- The state of one conversion attempt: the fields of the `ConversionJob`
class (osm.js lines 14-48).  Timestamps are millisecond counts (`Int`),
`stats` is the object as an association list in which later entries
shadow earlier ones (mirroring JS object spread). -/
structure JobRecord where
  jobId : String
  filename : String
  outputName : String
  projectId : Option String
  planType : String
  projection : String
  useColors : Bool
  includeFootpaths : Bool
  includeMinorRoads : Bool
  includeBuildings : Bool
  buildingStyle : String
  status : Status
  progress : Nat
  message : String
  createdAt : Int
  completedAt : Option Int
  errorMessage : Option String
  outputFile : Option String
  stats : List (String × String)
  userName : String
deriving DecidableEq, Repr

/-- The `options` argument of the `ConversionJob` constructor. -/
structure ConvOptions where
  planType : String
  projection : String
deriving DecidableEq, Repr

/-- `options.planType || 'key-plan'` (osm.js line 22): `||` treats the
empty string like an absent value. -/
def planTypeOf (options : ConvOptions) : String :=
  if options.planType = "" then "key-plan" else options.planType

/-- `options.projection || 'EPSG:3857'` (osm.js line 23). -/
def projectionOf (options : ConvOptions) : String :=
  if options.projection = "" then "EPSG:3857" else options.projection

/-- The `ConversionJob` constructor (osm.js lines 14-48): `'key-plan'`
selects the monochrome/outline bundle, every other plan type the
colored/filled location-plan bundle. -/
def mkConversionJob (jobId filename outputName : String) (projectId : Option String)
    (options : ConvOptions) (userName : String) (now : Int) : JobRecord :=
  if planTypeOf options = "key-plan" then
    { jobId := jobId, filename := filename, outputName := outputName,
      projectId := projectId, planType := planTypeOf options,
      projection := projectionOf options,
      useColors := false, includeFootpaths := false, includeMinorRoads := true,
      includeBuildings := true, buildingStyle := "outline",
      status := .pending, progress := 0, message := "Job created",
      createdAt := now, completedAt := none, errorMessage := none,
      outputFile := none, stats := [], userName := userName }
  else
    { jobId := jobId, filename := filename, outputName := outputName,
      projectId := projectId, planType := planTypeOf options,
      projection := projectionOf options,
      useColors := true, includeFootpaths := true, includeMinorRoads := true,
      includeBuildings := true, buildingStyle := "filled",
      status := .pending, progress := 0, message := "Job created",
      createdAt := now, completedAt := none, errorMessage := none,
      outputFile := none, stats := [], userName := userName }

/-- `needle.isPrefixOf` at every suffix of the haystack: the semantics of
JavaScript `String.prototype.includes`. -/
def charsIncludes (needle : List Char) : List Char → Bool
  | [] => needle.isEmpty
  | c :: t => needle.isPrefixOf (c :: t) || charsIncludes needle t

/-- JS `hay.includes(needle)`. -/
def strIncludes (hay needle : String) : Bool :=
  charsIncludes needle.data hay.data

/-- The progress classifier run on each stdout data event over the
accumulated output (osm.js lines 168-181): an `if`/`else if` chain, so the
FIRST matching row applies, and no match leaves the record unchanged. -/
def updateProgress (stdout : String) (job : JobRecord) : JobRecord :=
  if strIncludes stdout "Parsing OSM data" then
    { job with progress := 50, message := "Parsing OSM data..." }
  else if strIncludes stdout "Processing" && strIncludes stdout "nodes" then
    { job with progress := 65, message := "Processing nodes..." }
  else if strIncludes stdout "Processing" && strIncludes stdout "ways" then
    { job with progress := 80, message := "Processing ways..." }
  else if strIncludes stdout "Generating DXF" then
    { job with progress := 90, message := "Generating DXF..." }
  else job

/-- Outcome of probing one candidate interpreter with `--version`
(osm.js lines 88-95): the process closes with an exit code, or the spawn
itself fails (the `error` event).  Both non-zero exit and spawn failure
reject the probe promise, which the loop catches and treats as
unavailability of that candidate. -/
inductive ProbeOutcome where
  | exited (code : Int)
  | spawnFailed
deriving DecidableEq, Repr

/-- A probe counts as success exactly when the candidate exited with code 0. -/
def probeSucceeds : ProbeOutcome → Bool
  | .exited code => code == 0
  | .spawnFailed => false

/-- The ordered candidate list of osm.js line 84. -/
def pythonCommands : List String := ["python", "python3", "py"]

/-- `detectPythonCommand` (osm.js lines 83-102): try the candidates in
order, return the first whose probe succeeds, `none` when all fail. -/
def detectPythonCommand (probe : String → ProbeOutcome) : Option String :=
  pythonCommands.find? (fun c => probeSucceeds (probe c))

/-- One entry of the conversion history (osm.js lines 264-272). -/
structure HistEntry where
  name : String
  size : Nat
  created : Int
  createdBy : String
  planType : String
  projectId : Option String
  projectName : Option String
deriving DecidableEq, Repr

/-- osm.js line 274: "Keep only last 50 entries". -/
def historyCapacity : Nat := 50

/-- Appending to `conversionHistory` (osm.js lines 264-277):
`unshift` the new entry, then `splice(50)` when the length exceeds 50. -/
def historyAppend (e : HistEntry) (l : List HistEntry) : List HistEntry :=
  if (e :: l).length > historyCapacity then (e :: l).take historyCapacity else e :: l

/-- The history after a chronological sequence of completions, oldest
first, starting from the empty log. -/
def historyFold (es : List HistEntry) : List HistEntry :=
  es.foldl (fun l e => historyAppend e l) []

/-- `conversionJobs[jobId] = job`: overwrite the entry at an existing key
(JS objects keep the original insertion position), otherwise add a new
key at the end.  No collision check is performed. -/
def registryInsert (k : String) (j : JobRecord) :
    List (String × JobRecord) → List (String × JobRecord)
  | [] => [(k, j)]
  | kv :: m => if kv.1 == k then (k, j) :: m else kv :: registryInsert k j m

/-- `conversionJobs[jobId]` read. -/
def registryGet (m : List (String × JobRecord)) (k : String) : Option JobRecord :=
  (m.find? (fun kv => kv.1 == k)).map (fun kv => kv.2)

/-- The reaper retention window: one hour in milliseconds (osm.js line 504). -/
def retentionMs : Int := 60 * 60 * 1000

/-- One sweep of the periodic cleanup (osm.js lines 502-512): delete every
record that is older than one hour AND terminal (`completed` or `error`). -/
def reapSweep (now : Int) (jobs : List (String × JobRecord)) :
    List (String × JobRecord) :=
  jobs.filter (fun kv =>
    !(decide (kv.2.createdAt < now - retentionMs) &&
      (kv.2.status == Status.completed || kv.2.status == Status.error)))

/-- Node's `path.parse(f).name` for a plain filename: drop the final
extension, keeping a leading-dot name (dotfile) intact.  The argument
list is the filename reversed. -/
def dropExtAux : List Char → Option (List Char)
  | [] => none
  | ['.'] => none
  | '.' :: t => some t
  | _ :: t => dropExtAux t

/-- `path.parse(f).name`. -/
def parsedName (f : String) : String :=
  match dropExtAux f.data.reverse with
  | some t => String.mk t.reverse
  | none => f

/-- The close event of the spawned converter process: an exit code, or the
`error` event when the process could not be started (osm.js lines 189-201). -/
inductive ExitEvent where
  | exited (code : Int)
  | launchFailed (msg : String)
deriving DecidableEq, Repr

/-- State of the statistics side-file at finalization time
(osm.js lines 211-220): missing, present but unparseable JSON, or
present with a parsed mapping. -/
inductive StatsFileState where
  | absent
  | malformed
  | parsed (m : List (String × String))
deriving DecidableEq, Repr

/-- The mapping the stats read yields: `{}` unless the file parsed
(`conversionStats` stays `{}` both when the file is missing and when
`JSON.parse` throws, osm.js lines 212-220). -/
def parsedStats : StatsFileState → List (String × String)
  | .parsed m => m
  | _ => []

/-- Everything the environment decides during one run of the background
task: existence checks, probe outcomes, the stdout chunk sequence, the
process close event, accumulated stderr, the output artifact check, the
stats side-file and the output file size, plus the completion clock. -/
structure ConvEnv where
  inputExists : Bool
  probe : String → ProbeOutcome
  chunks : List String
  exitEvent : ExitEvent
  stderrText : String
  outputExists : Bool
  statsFile : StatsFileState
  outputFileSize : Nat
  now : Int

/-- The catch block of `performConversion` (osm.js lines 279-285): mark the
record failed and reset progress. -/
def errStep (msg : String) (j : JobRecord) : JobRecord :=
  { j with status := .error, message := "Conversion failed: " ++ msg,
           errorMessage := some msg, progress := 0 }

/-- Drain the stdout chunk sequence: each data event appends the chunk to
the accumulated output and runs the classifier on the accumulation
(osm.js lines 166-182).  Returns the record states after each event and
the record after the last one. -/
def runChunks (j : JobRecord) (acc : String) :
    List String → List JobRecord × JobRecord
  | [] => ([], j)
  | c :: cs =>
      let kj := updateProgress (acc ++ c) j
      let rest := runChunks kj (acc ++ c) cs
      (kj :: rest.1, rest.2)

/-- The name of the DXF artifact (osm.js line 115). -/
def outputFilenameOf (j : JobRecord) : String :=
  parsedName j.filename ++ "_" ++ j.jobId ++ ".dxf"

/-- The completion block (osm.js lines 250-261): mark completed and merge
the stats object; in `{ fileSize, planType, projection, ...conversionStats }`
the spread comes last, so parsed entries shadow the derived ones — the
association list lookup prefers later entries. -/
def completeStep (env : ConvEnv) (j : JobRecord) : JobRecord :=
  { j with
    status := .completed,
    message := "Conversion completed successfully!",
    progress := 100,
    completedAt := some env.now,
    outputFile := some (outputFilenameOf j),
    stats := [("fileSize", toString env.outputFileSize),
              ("planType", j.planType),
              ("projection", j.projection)] ++ parsedStats env.statsFile }

/-- The record state after the first mutation block of the task
(osm.js lines 109-111). -/
def startStep (j : JobRecord) : JobRecord :=
  { j with status := .processing, message := "Starting conversion...", progress := 10 }

/-- osm.js lines 126-127. -/
def detectStep (j : JobRecord) : JobRecord :=
  { j with message := "Detecting Python environment...", progress := 20 }

/-- osm.js lines 135-136. -/
def prepStep (j : JobRecord) : JobRecord :=
  { j with message := "Preparing conversion...", progress := 30 }

/-- osm.js lines 154-155. -/
def spawnStep (j : JobRecord) : JobRecord :=
  { j with message := "Starting Python conversion process...", progress := 40 }

/-- osm.js lines 203-204. -/
def finalizeStep (j : JobRecord) : JobRecord :=
  { j with message := "Finalizing conversion...", progress := 95 }

/-- Every observable state of the job record over one run of the
background task `performConversion` (osm.js lines 105-286), starting from
the record as created.  Mutations between two `await` points happen
atomically on the single-threaded event loop and appear as one state. -/
def conversionTrace (env : ConvEnv) (j0 : JobRecord) : List JobRecord :=
  let j1 := startStep j0
  j0 :: j1 ::
    (if env.inputExists = false then
      [errStep "OSM file not found" j1]
    else
      let j2 := detectStep j1
      j2 ::
        (match detectPythonCommand env.probe with
        | none => [errStep "Python not found. Please install Python 3.x" j2]
        | some _ =>
          let j3 := prepStep j2
          let j4 := spawnStep j3
          let drained := runChunks j4 "" env.chunks
          j3 :: j4 :: (drained.1 ++
            (match env.exitEvent with
            | .launchFailed m =>
                [errStep ("Failed to start Python process: " ++ m) drained.2]
            | .exited code =>
                if code ≠ 0 then
                  [errStep ("Python script failed with code " ++ toString code ++
                    ": " ++ env.stderrText) drained.2]
                else
                  let j5 := finalizeStep drained.2
                  j5 ::
                    (if env.outputExists = false then
                      [errStep "DXF output file was not created" j5]
                    else
                      [completeStep env j5])))))

/-- The final state of the job record after the background task finishes:
`performConversion` as a total function — every failure is captured as
data in the record, no exception escapes the task. -/
def performConversion (env : ConvEnv) (j0 : JobRecord) : JobRecord :=
  if env.inputExists = false then
    errStep "OSM file not found" (startStep j0)
  else
    match detectPythonCommand env.probe with
    | none => errStep "Python not found. Please install Python 3.x"
        (detectStep (startStep j0))
    | some _ =>
      let j4 := spawnStep (prepStep (detectStep (startStep j0)))
      let jc := (runChunks j4 "" env.chunks).2
      match env.exitEvent with
      | .launchFailed m => errStep ("Failed to start Python process: " ++ m) jc
      | .exited code =>
          if code ≠ 0 then
            errStep ("Python script failed with code " ++ toString code ++
              ": " ++ env.stderrText) jc
          else
            let j5 := finalizeStep jc
            if env.outputExists = false then
              errStep "DXF output file was not created" j5
            else
              completeStep env j5

/-- The request data reaching the `/convert` route handler
(osm.js lines 311-335): whether multer stored a file, the stored and
original filenames, the optional body fields, and the requesting user. -/
structure ConvertRequest where
  fileUploaded : Bool
  originalName : String
  storedFilename : String
  planType : Option String
  projection : Option String
  projectId : Option String
  userName : String

/-- `uuidv4().substring(0, 8)` (osm.js line 323), abstracting the uuid
draw as an input string. -/
def shortenId (s : String) : String :=
  String.mk (s.data.take 8)

/-- What the `/convert` handler produces on acceptance. -/
structure ConvertOutcome where
  jobId : String
  job : JobRecord
  registry : List (String × JobRecord)
deriving DecidableEq, Repr

/-- The `/convert` route handler (osm.js lines 311-348): reject when no
file was uploaded; otherwise default the body fields
(`planType = 'key-plan'`, `projection = 'EPSG:3857'` apply only when the
field is absent), build the job from the generated id and store it in the
registry, returning the id immediately. -/
def convertRoute (req : ConvertRequest) (rawId : String) (now : Int)
    (reg : List (String × JobRecord)) : Option ConvertOutcome :=
  if req.fileUploaded = false then
    none
  else
    let planType := req.planType.getD "key-plan"
    let projection := req.projection.getD "EPSG:3857"
    let jobId := shortenId rawId
    let outputName := parsedName req.originalName ++ "_converted.dxf"
    let job := mkConversionJob jobId req.storedFilename outputName req.projectId
      { planType := planType, projection := projection } req.userName now
    some { jobId := jobId, job := job, registry := registryInsert jobId job reg }

/-! ## Derived notions used by the statements -/

/-- The milestone value the classifier's first matching row assigns to a
cumulative output, `0` when no row matches. -/
def classLevel (s : String) : Nat :=
  if strIncludes s "Parsing OSM data" then 50
  else if strIncludes s "Processing" && strIncludes s "nodes" then 65
  else if strIncludes s "Processing" && strIncludes s "ways" then 80
  else if strIncludes s "Generating DXF" then 90
  else 0

/-- The progress value the record holds after the classifier has seen a
cumulative output: the matched milestone, or 40 (the value set just
before spawning) while nothing matches. -/
def levF (s : String) : Nat :=
  if classLevel s = 0 then 40 else classLevel s

/-- The cumulative outputs seen at each data event, given the already
accumulated prefix. -/
def cumulList (acc : String) : List String → List String
  | [] => []
  | c :: cs => (acc ++ c) :: cumulList (acc ++ c) cs

/-- The accumulated output after the last data event. -/
def lastCumul (acc : String) : List String → String
  | [] => acc
  | c :: cs => lastCumul (acc ++ c) cs

/-- One observable step of the record respects the progress discipline:
either the new state is the error state with progress reset to 0, or the
status is not `error` and progress did not decrease. -/
def StepOk (a b : JobRecord) : Prop :=
  (b.status = Status.error ∧ b.progress = 0) ∨
    (b.status ≠ Status.error ∧ a.progress ≤ b.progress)

instance stepOkDec : DecidableRel StepOk := fun a b =>
  inferInstanceAs (Decidable ((b.status = Status.error ∧ b.progress = 0) ∨
    (b.status ≠ Status.error ∧ a.progress ≤ b.progress)))

/-- The whole observable trace respects `StepOk` between consecutive
states (a computable chain predicate). -/
def ChainOk : List JobRecord → Prop
  | [] => True
  | [_] => True
  | a :: b :: l => StepOk a b ∧ ChainOk (b :: l)

instance chainOkDec : (l : List JobRecord) → Decidable (ChainOk l)
  | [] => inferInstanceAs (Decidable True)
  | [_] => inferInstanceAs (Decidable True)
  | a :: b :: l =>
      have : Decidable (ChainOk (b :: l)) := chainOkDec (b :: l)
      inferInstanceAs (Decidable (StepOk a b ∧ ChainOk (b :: l)))

/-- A list of milestone levels is non-decreasing (computable). -/
def levelsMono : List Nat → Prop
  | [] => True
  | [_] => True
  | a :: b :: l => a ≤ b ∧ levelsMono (b :: l)

instance levelsMonoDec : (l : List Nat) → Decidable (levelsMono l)
  | [] => inferInstanceAs (Decidable True)
  | [_] => inferInstanceAs (Decidable True)
  | a :: b :: l =>
      have : Decidable (levelsMono (b :: l)) := levelsMonoDec (b :: l)
      inferInstanceAs (Decidable (a ≤ b ∧ levelsMono (b :: l)))

/-! ## Concrete instances used by witnesses and counterexamples -/

/-- A concrete job record for the concrete instances below. -/
def sampleJob : JobRecord :=
  mkConversionJob "a1b2c3d4" "map.osm" "map_converted.dxf" none
    { planType := "key-plan", projection := "EPSG:3857" } "Adip" 0

/-- A fresh history entry. -/
def histE : HistEntry :=
  { name := "map_a1b2c3d4.dxf", size := 2048, created := 99, createdBy := "Adip",
    planType := "key-plan", projectId := none, projectName := none }

/-- An older history entry, distinct from `histE`. -/
def histF : HistEntry :=
  { name := "old_00000000.dxf", size := 1, created := 0, createdBy := "Elyas",
    planType := "location-plan", projectId := none, projectName := none }

/-- A terminal record created at time 0. -/
def reapJobDone : JobRecord :=
  { sampleJob with status := Status.completed }

/-- A still-running record created at time 0. -/
def reapJobWip : JobRecord :=
  { sampleJob with status := Status.pending }

/-- A request with a non-standard plan type. -/
def c10req : ConvertRequest :=
  { fileUploaded := true, originalName := "town.osm", storedFilename := "osm-1.osm",
    planType := some "floor-plan", projection := none, projectId := none,
    userName := "Syahmi" }

/-- The same request with the plan type field absent. -/
def c10reqDefault : ConvertRequest :=
  { c10req with planType := none }

/-- First submission of the collision scenario. -/
def c2req1 : ConvertRequest :=
  { fileUploaded := true, originalName := "town.osm", storedFilename := "osm-1.osm",
    planType := none, projection := none, projectId := none, userName := "Adip" }

/-- Second submission of the collision scenario, by another user. -/
def c2req2 : ConvertRequest :=
  { c2req1 with storedFilename := "osm-2.osm", userName := "Elyas" }

/-- Registry after the first submission of the collision scenario. -/
def c2reg1 : List (String × JobRecord) :=
  ((convertRoute c2req1 "9f8e7d6c-1111" 0 []).map (fun o => o.registry)).getD []

/-- Outcome of the first submission with a distinct second draw. -/
def c2outA : ConvertOutcome :=
  (convertRoute c2req1 "9f8e7d6c-1111" 0 []).getD ⟨"", sampleJob, []⟩

/-- Outcome of the second submission with a distinct second draw. -/
def c2outB : ConvertOutcome :=
  (convertRoute c2req2 "12345678-2222" 5 c2outA.registry).getD ⟨"", sampleJob, []⟩

/-- A run whose input file is missing. -/
def envNoInput : ConvEnv :=
  { inputExists := false, probe := fun _ => ProbeOutcome.exited 0, chunks := [],
    exitEvent := ExitEvent.exited 0, stderrText := "", outputExists := true,
    statsFile := StatsFileState.absent, outputFileSize := 0, now := 50 }

/-- A run whose output mentions nodes before the parsing fragment ever
appears, so the classifier walks back from 65 to 50. -/
def envBadOrder : ConvEnv :=
  { inputExists := true, probe := fun _ => ProbeOutcome.exited 0,
    chunks := ["Processing 12 nodes", " Parsing OSM data"],
    exitEvent := ExitEvent.exited 0, stderrText := "", outputExists := true,
    statsFile := StatsFileState.absent, outputFileSize := 2048, now := 1000 }

/-- A fully successful run. -/
def envGood : ConvEnv :=
  { inputExists := true, probe := fun _ => ProbeOutcome.exited 0,
    chunks := ["Parsing OSM data\n", "Generating DXF\n"],
    exitEvent := ExitEvent.exited 0, stderrText := "", outputExists := true,
    statsFile := StatsFileState.absent, outputFileSize := 2048, now := 1000 }

/-- A run whose converter process exits with code 1 (spec scenario C). -/
def envExitFail : ConvEnv :=
  { envGood with exitEvent := ExitEvent.exited 1, stderrText := "bad geometry" }

/-- A successful run whose statistics side-file is unparseable. -/
def envStatsBad : ConvEnv :=
  { envGood with statsFile := StatsFileState.malformed }

/-! ## Helper lemmas -/

theorem mk_status (a b c : String) (p : Option String) (o : ConvOptions)
    (u : String) (t : Int) : (mkConversionJob a b c p o u t).status = .pending := by
  unfold mkConversionJob
  split <;> rfl

theorem mk_progress (a b c : String) (p : Option String) (o : ConvOptions)
    (u : String) (t : Int) : (mkConversionJob a b c p o u t).progress = 0 := by
  unfold mkConversionJob
  split <;> rfl

theorem mk_completedAt (a b c : String) (p : Option String) (o : ConvOptions)
    (u : String) (t : Int) : (mkConversionJob a b c p o u t).completedAt = none := by
  unfold mkConversionJob
  split <;> rfl

theorem mk_errorMessage (a b c : String) (p : Option String) (o : ConvOptions)
    (u : String) (t : Int) : (mkConversionJob a b c p o u t).errorMessage = none := by
  unfold mkConversionJob
  split <;> rfl

theorem updateProgress_status (s : String) (j : JobRecord) :
    (updateProgress s j).status = j.status := by
  unfold updateProgress
  split_ifs <;> rfl

theorem updateProgress_completedAt (s : String) (j : JobRecord) :
    (updateProgress s j).completedAt = j.completedAt := by
  unfold updateProgress
  split_ifs <;> rfl

theorem updateProgress_errorMessage (s : String) (j : JobRecord) :
    (updateProgress s j).errorMessage = j.errorMessage := by
  unfold updateProgress
  split_ifs <;> rfl

theorem updateProgress_planType (s : String) (j : JobRecord) :
    (updateProgress s j).planType = j.planType := by
  unfold updateProgress
  split_ifs <;> rfl

theorem updateProgress_projection (s : String) (j : JobRecord) :
    (updateProgress s j).projection = j.projection := by
  unfold updateProgress
  split_ifs <;> rfl

theorem updateProgress_progress (s : String) (j : JobRecord) :
    (updateProgress s j).progress =
      if classLevel s = 0 then j.progress else classLevel s := by
  unfold updateProgress classLevel
  split_ifs <;> simp_all

theorem classLevel_cases (s : String) :
    classLevel s = 0 ∨ (50 ≤ classLevel s ∧ classLevel s ≤ 90) := by
  unfold classLevel
  split_ifs <;> simp

theorem levF_ge (s : String) : 40 ≤ levF s := by
  unfold levF
  rcases classLevel_cases s with h | h <;> split_ifs <;> omega

theorem levF_le (s : String) : levF s ≤ 90 := by
  unfold levF
  rcases classLevel_cases s with h | h <;> split_ifs <;> omega

theorem levF_empty : levF "" = 40 := by decide

theorem chainOk_iff : ∀ l : List JobRecord, ChainOk l ↔ List.Chain' StepOk l
  | [] => by simp [ChainOk]
  | [_] => by simp [ChainOk]
  | a :: b :: l => by
      rw [ChainOk, List.chain'_cons, chainOk_iff (b :: l)]

theorem levelsMono_iff : ∀ l : List Nat, levelsMono l ↔ List.Chain' (· ≤ ·) l
  | [] => by simp [levelsMono]
  | [_] => by simp [levelsMono]
  | a :: b :: l => by
      rw [levelsMono, List.chain'_cons, levelsMono_iff (b :: l)]

theorem runChunks_snd_status (cs : List String) (acc : String) (j : JobRecord) :
    ((runChunks j acc cs).2).status = j.status := by
  induction cs generalizing acc j with
  | nil => rfl
  | cons c cs ih => simp [runChunks, ih, updateProgress_status]

theorem runChunks_snd_completedAt (cs : List String) (acc : String) (j : JobRecord) :
    ((runChunks j acc cs).2).completedAt = j.completedAt := by
  induction cs generalizing acc j with
  | nil => rfl
  | cons c cs ih => simp [runChunks, ih, updateProgress_completedAt]

theorem runChunks_snd_errorMessage (cs : List String) (acc : String) (j : JobRecord) :
    ((runChunks j acc cs).2).errorMessage = j.errorMessage := by
  induction cs generalizing acc j with
  | nil => rfl
  | cons c cs ih => simp [runChunks, ih, updateProgress_errorMessage]

theorem runChunks_snd_planType (cs : List String) (acc : String) (j : JobRecord) :
    ((runChunks j acc cs).2).planType = j.planType := by
  induction cs generalizing acc j with
  | nil => rfl
  | cons c cs ih => simp [runChunks, ih, updateProgress_planType]

theorem runChunks_snd_projection (cs : List String) (acc : String) (j : JobRecord) :
    ((runChunks j acc cs).2).projection = j.projection := by
  induction cs generalizing acc j with
  | nil => rfl
  | cons c cs ih => simp [runChunks, ih, updateProgress_projection]

theorem runChunks_mem_status (cs : List String) (acc : String) (j r : JobRecord)
    (hr : r ∈ (runChunks j acc cs).1) : r.status = j.status := by
  induction cs generalizing acc j with
  | nil => simp [runChunks] at hr
  | cons c cs ih =>
      simp only [runChunks, List.mem_cons] at hr
      rcases hr with rfl | hr
      · exact updateProgress_status _ _
      · rw [ih _ _ hr, updateProgress_status]

theorem runChunks_mem_completedAt (cs : List String) (acc : String) (j r : JobRecord)
    (hr : r ∈ (runChunks j acc cs).1) : r.completedAt = j.completedAt := by
  induction cs generalizing acc j with
  | nil => simp [runChunks] at hr
  | cons c cs ih =>
      simp only [runChunks, List.mem_cons] at hr
      rcases hr with rfl | hr
      · exact updateProgress_completedAt _ _
      · rw [ih _ _ hr, updateProgress_completedAt]

theorem runChunks_cons_getLast (cs : List String) (acc : String) (j : JobRecord) :
    (j :: (runChunks j acc cs).1).getLast? = some ((runChunks j acc cs).2) := by
  induction cs generalizing acc j with
  | nil => rfl
  | cons c cs ih => simp [runChunks, List.getLast?_cons_cons, ih]

/-- Draining the chunks yields a `StepOk` chain provided the milestone
levels of the successive cumulative outputs never go down, and the final
record holds the level of the last cumulative output. -/
theorem runChunks_chain (cs : List String) (acc : String) (j : JobRecord)
    (hst : j.status = Status.processing)
    (hpr : j.progress = levF acc)
    (H : List.Chain' (· ≤ ·) (levF acc :: (cumulList acc cs).map levF)) :
    List.Chain' StepOk (j :: (runChunks j acc cs).1) ∧
      ((runChunks j acc cs).2).progress = levF (lastCumul acc cs) := by
  induction cs generalizing acc j with
  | nil =>
      exact ⟨List.chain'_singleton j, by simpa [runChunks, lastCumul] using hpr⟩
  | cons c cs ih =>
      simp only [cumulList, List.map_cons] at H
      have h1 : levF acc ≤ levF (acc ++ c) := (List.chain'_cons.mp H).1
      have H2 := (List.chain'_cons.mp H).2
      have hkst : (updateProgress (acc ++ c) j).status = Status.processing := by
        rw [updateProgress_status, hst]
      have hkpr : (updateProgress (acc ++ c) j).progress = levF (acc ++ c) := by
        rw [updateProgress_progress]
        by_cases h0 : classLevel (acc ++ c) = 0
        · have he : levF (acc ++ c) = 40 := by simp [levF, h0]
          have h40 : levF acc = 40 := le_antisymm (he ▸ h1) (levF_ge acc)
          simp [h0, hpr, h40, he]
        · simp [h0, levF]
      obtain ⟨hc, hp⟩ := ih (acc ++ c) _ hkst hkpr H2
      refine ⟨?_, by simpa [runChunks, lastCumul] using hp⟩
      show List.Chain' StepOk
        (j :: updateProgress (acc ++ c) j :: (runChunks (updateProgress (acc ++ c) j) (acc ++ c) cs).1)
      refine List.chain'_cons.mpr ⟨Or.inr ⟨by simp [hkst], ?_⟩, hc⟩
      rw [hpr, hkpr]
      exact h1

theorem historyAppend_eq_take (e : HistEntry) (l : List HistEntry) :
    historyAppend e l = (e :: l).take historyCapacity := by
  unfold historyAppend
  split_ifs with h
  · rfl
  · exact (List.take_of_length_le (by omega)).symm

theorem take_append_take {α : Type} (x y : List α) (n : Nat) :
    (x ++ y.take n).take n = (x ++ y).take n := by
  rw [List.take_append_eq_append_take, List.take_append_eq_append_take, List.take_take,
    Nat.min_eq_left (Nat.sub_le n x.length)]

theorem historyFold_go (es : List HistEntry) (acc : List HistEntry)
    (hacc : acc.length ≤ historyCapacity) :
    es.foldl (fun l e => historyAppend e l) acc =
      (es.reverse ++ acc).take historyCapacity := by
  induction es generalizing acc with
  | nil => simp [List.take_of_length_le hacc]
  | cons e es ih =>
      rw [List.foldl_cons, ih _ (by rw [historyAppend_eq_take]; exact List.length_take_le _ _),
        historyAppend_eq_take, take_append_take, List.reverse_cons, List.append_assoc,
        List.singleton_append]

/-- The whole log after a chronological sequence of appends: the reverse
of the append order (newest first), truncated to capacity. -/
theorem historyFold_eq (es : List HistEntry) :
    historyFold es = es.reverse.take historyCapacity := by
  unfold historyFold
  rw [historyFold_go _ _ (by simp)]
  simp

theorem registryGet_insert_self (k : String) (j : JobRecord)
    (m : List (String × JobRecord)) :
    registryGet (registryInsert k j m) k = some j := by
  induction m with
  | nil => simp [registryInsert, registryGet]
  | cons kv m ih =>
      by_cases h : kv.1 = k
      · simp [registryInsert, registryGet, h]
      · simpa [registryInsert, registryGet, h] using ih

theorem registryGet_insert_ne (k k' : String) (hne : k' ≠ k) (j : JobRecord)
    (m : List (String × JobRecord)) :
    registryGet (registryInsert k j m) k' = registryGet m k' := by
  have hne2 : ¬(k = k') := fun hk => hne hk.symm
  induction m with
  | nil => simp [registryInsert, registryGet, hne2]
  | cons kv m ih =>
      by_cases h : kv.1 = k
      · simp [registryInsert, registryGet, h, hne2, fun hk : kv.1 = k' => hne2 (h ▸ hk)]
      · by_cases h3 : kv.1 = k'
        · simp [registryInsert, registryGet, h, h3, hne2, hne]
        · simpa [registryInsert, registryGet, h, h3] using ih

/-! ## Claims -/

/-- C8: the interpreter locator probes `python`, `python3`, `py` in order,
returns the first candidate whose version probe exits with code 0 and
`none` when no candidate succeeds; a failed probe (non-zero exit or spawn
failure) only makes that candidate unavailable, it is never surfaced as
an error. -/
theorem detectPython_first_success (probe : String → ProbeOutcome) :
    (detectPythonCommand probe =
      (if probeSucceeds (probe "python") then some "python"
       else if probeSucceeds (probe "python3") then some "python3"
       else if probeSucceeds (probe "py") then some "py"
       else none)) ∧
    (detectPythonCommand probe = none ↔
      ∀ c ∈ pythonCommands, probeSucceeds (probe c) = false) ∧
    (∀ code : Int, probeSucceeds (ProbeOutcome.exited code) = true ↔ code = 0) ∧
    probeSucceeds ProbeOutcome.spawnFailed = false := by
  refine ⟨?_, ?_, ?_, rfl⟩
  · unfold detectPythonCommand pythonCommands
    cases h1 : probeSucceeds (probe "python") <;>
      cases h2 : probeSucceeds (probe "python3") <;>
        cases h3 : probeSucceeds (probe "py") <;>
          simp [h1, h2, h3]
  · unfold detectPythonCommand pythonCommands
    cases h1 : probeSucceeds (probe "python") <;>
      cases h2 : probeSucceeds (probe "python3") <;>
        cases h3 : probeSucceeds (probe "py") <;>
          simp [h1, h2, h3]
  · intro code
    simp [probeSucceeds]

/-- C7: the history log never exceeds its capacity of 50 entries, each
append prepends so the listing is newest first, and after capacity+1
completions the oldest entry has been evicted while the newest is first. -/
theorem history_capacity_order (x e : HistEntry) (l rest : List HistEntry)
    (hlen : rest.length = historyCapacity) (hnotin : e ∉ rest) :
    (historyAppend x l).length ≤ historyCapacity ∧
    (historyAppend x l).head? = some x ∧
    historyFold (e :: rest) = rest.reverse ∧
    e ∉ historyFold (e :: rest) ∧
    (historyFold (e :: rest)).head? = rest.getLast? := by
  have hrev : rest.reverse.length = historyCapacity := by simp [hlen]
  have hfold : historyFold (e :: rest) = rest.reverse := by
    rw [historyFold_eq, List.reverse_cons, List.take_append_eq_append_take,
      List.take_of_length_le (le_of_eq hrev), hrev, Nat.sub_self, List.take_zero,
      List.append_nil]
  refine ⟨?_, ?_, hfold, ?_, ?_⟩
  · rw [historyAppend_eq_take]
    exact List.length_take_le _ _
  · rw [historyAppend_eq_take]
    rfl
  · rw [hfold]
    simpa using hnotin
  · rw [hfold, List.head?_reverse]

/-- C7 witness: a log of 50 older entries plus one fresh append. -/
theorem history_capacity_order_witness :
    (historyAppend histE (List.replicate 3 histF)).length ≤ historyCapacity ∧
    (historyAppend histE (List.replicate 3 histF)).head? = some histE ∧
    historyFold (histE :: List.replicate 50 histF) = (List.replicate 50 histF).reverse ∧
    histE ∉ historyFold (histE :: List.replicate 50 histF) ∧
    (historyFold (histE :: List.replicate 50 histF)).head? =
      (List.replicate 50 histF).getLast? :=
  history_capacity_order histE histE (List.replicate 3 histF) (List.replicate 50 histF)
    (by decide) (by decide)

/-- C6: a reaper sweep never removes a record that is still `pending` or
`processing`, regardless of age, and removes every terminal record whose
creation time is older than the one-hour retention window. -/
theorem reaper_sweep_policy (tnow : Int) (jobs : List (String × JobRecord))
    (k : String) (j : JobRecord) (hmem : (k, j) ∈ jobs) :
    ((j.status = Status.pending ∨ j.status = Status.processing) →
      (k, j) ∈ reapSweep tnow jobs) ∧
    ((j.status = Status.completed ∨ j.status = Status.error) →
      j.createdAt < tnow - retentionMs → (k, j) ∉ reapSweep tnow jobs) := by
  constructor
  · intro hs
    rw [reapSweep, List.mem_filter]
    refine ⟨hmem, ?_⟩
    rcases hs with h | h <;> simp [h]
  · intro hs hold
    rw [reapSweep, List.mem_filter]
    intro hcon
    rcases hs with h | h <;> simp [h, hold] at hcon

/-- C6 witness: an old completed record is swept, an equally old pending
record survives. -/
theorem reaper_sweep_policy_witness :
    ("a", reapJobDone) ∉ reapSweep 7200000 [("a", reapJobDone), ("b", reapJobWip)] ∧
    ("b", reapJobWip) ∈ reapSweep 7200000 [("a", reapJobDone), ("b", reapJobWip)] := by
  have ha := reaper_sweep_policy 7200000 [("a", reapJobDone), ("b", reapJobWip)] "a"
    reapJobDone (List.mem_cons_self _ _)
  have hb := reaper_sweep_policy 7200000 [("a", reapJobDone), ("b", reapJobWip)] "b"
    reapJobWip (List.mem_cons_of_mem _ (List.mem_cons_self _ _))
  exact ⟨ha.2 (Or.inl rfl) (by decide), hb.1 (Or.inl rfl)⟩

/-- C10: a submission whose planType is a non-empty string other than
"key-plan" is accepted with the location-plan bundle (colors, footpaths,
filled buildings) while the record keeps the submitted string verbatim;
an absent or empty planType yields the key-plan default bundle. -/
theorem planType_bundle (req : ConvertRequest) (g : String) (tnow : Int)
    (reg : List (String × JobRecord)) (hfile : req.fileUploaded = true) :
    (∀ s, req.planType = some s → s ≠ "" → s ≠ "key-plan" →
      (convertRoute req g tnow reg).map
        (fun o => (o.job.useColors, o.job.includeFootpaths, o.job.buildingStyle,
          o.job.planType)) = some (true, true, "filled", s)) ∧
    (req.planType = none ∨ req.planType = some "" →
      (convertRoute req g tnow reg).map
        (fun o => (o.job.useColors, o.job.includeFootpaths, o.job.buildingStyle,
          o.job.planType)) = some (false, false, "outline", "key-plan")) := by
  unfold convertRoute
  rw [if_neg (by simp [hfile])]
  constructor
  · intro s hs hne hkp
    rw [hs]
    simp only [Option.getD_some, Option.map_some']
    unfold mkConversionJob planTypeOf projectionOf
    simp [hne, hkp]
  · intro hs
    rcases hs with hs | hs <;> rw [hs] <;>
      simp only [Option.getD_none, Option.getD_some, Option.map_some'] <;>
        unfold mkConversionJob planTypeOf projectionOf <;> simp

/-- C10 witness: planType "floor-plan" gets the location bundle verbatim,
an absent planType gets the key-plan bundle. -/
theorem planType_bundle_witness :
    (convertRoute c10req "0123456789abcdef" 0 []).map
      (fun o => (o.job.useColors, o.job.includeFootpaths, o.job.buildingStyle,
        o.job.planType)) = some (true, true, "filled", "floor-plan") ∧
    (convertRoute c10reqDefault "0123456789abcdef" 0 []).map
      (fun o => (o.job.useColors, o.job.includeFootpaths, o.job.buildingStyle,
        o.job.planType)) = some (false, false, "outline", "key-plan") :=
  ⟨(planType_bundle c10req "0123456789abcdef" 0 [] rfl).1 "floor-plan" rfl
      (by decide) (by decide),
    (planType_bundle c10reqDefault "0123456789abcdef" 0 [] rfl).2 (Or.inl rfl)⟩

/-- C1 counterexample: the classifier is a first-match `if`/`else if`
chain over the cumulative output, so when both the "Parsing OSM data" and
the "Generating DXF" fragments are present, progress is set to 50, not
90 — the last matching row does NOT win. -/
theorem classifier_last_match_cex :
    strIncludes "Parsing OSM data\nGenerating DXF" "Generating DXF" = true ∧
    strIncludes "Parsing OSM data\nGenerating DXF" "Parsing OSM data" = true ∧
    (updateProgress "Parsing OSM data\nGenerating DXF" sampleJob).progress = 50 ∧
    ¬((updateProgress "Parsing OSM data\nGenerating DXF" sampleJob).progress = 90) := by
  decide

/-- C1 (amended): milestones are evaluated in the fixed table order and the
FIRST matching row wins: once the cumulative output contains
"Parsing OSM data", progress is 50 and the message is the parsing one
even when "Generating DXF" is also present; "Generating DXF" yields 90
only when no earlier row matches. -/
theorem classifier_first_match (s t : String) (j k : JobRecord)
    (hp : strIncludes s "Parsing OSM data" = true)
    (ht1 : strIncludes t "Parsing OSM data" = false)
    (ht2 : strIncludes t "Processing" = false)
    (ht4 : strIncludes t "Generating DXF" = true) :
    (updateProgress s j).progress = 50 ∧
    (updateProgress s j).message = "Parsing OSM data..." ∧
    (updateProgress t k).progress = 90 ∧
    (updateProgress t k).message = "Generating DXF..." := by
  simp [updateProgress, hp, ht1, ht2, ht4]

/-- C1 witness for the amended claim. -/
theorem classifier_first_match_witness :
    (updateProgress "Parsing OSM data then Generating DXF" sampleJob).progress = 50 ∧
    (updateProgress "Parsing OSM data then Generating DXF" sampleJob).message =
      "Parsing OSM data..." ∧
    (updateProgress "Generating DXF" sampleJob).progress = 90 ∧
    (updateProgress "Generating DXF" sampleJob).message = "Generating DXF..." :=
  classifier_first_match "Parsing OSM data then Generating DXF" "Generating DXF"
    sampleJob sampleJob (by decide) (by decide) (by decide) (by decide)

/-- C2 counterexample: the route takes `uuidv4().substring(0, 8)` with no
collision check against the registry; when two uuid draws share their
8-character prefix, both submissions receive the same jobId and the
second record overwrites the first. -/
theorem jobId_collision_cex :
    (convertRoute c2req1 "9f8e7d6c-1111" 0 []).map (fun o => o.jobId) =
      some "9f8e7d6c" ∧
    (convertRoute c2req2 "9f8e7d6c-2222" 5 c2reg1).map (fun o => o.jobId) =
      some "9f8e7d6c" ∧
    (convertRoute c2req2 "9f8e7d6c-2222" 5 c2reg1).map (fun o => o.registry.length) =
      some 1 ∧
    (convertRoute c2req2 "9f8e7d6c-2222" 5 c2reg1).map
        (fun o => registryGet o.registry "9f8e7d6c") ≠
      (convertRoute c2req1 "9f8e7d6c-1111" 0 []).map (fun o => some o.job) := by
  decide

/-- C2 (amended): two submissions receive distinct jobIds, and both records
remain retrievable, whenever the 8-character truncations of the two uuid
draws differ; the registry performs no collision check of its own, so
distinctness is inherited from the id source rather than enforced. -/
theorem jobIds_distinct_of_draws_distinct (req1 req2 : ConvertRequest)
    (g1 g2 : String) (t1 t2 : Int) (reg : List (String × JobRecord))
    (o1 o2 : ConvertOutcome)
    (hne : shortenId g1 ≠ shortenId g2)
    (ho1 : convertRoute req1 g1 t1 reg = some o1)
    (ho2 : convertRoute req2 g2 t2 o1.registry = some o2) :
    o1.jobId ≠ o2.jobId ∧
    registryGet o2.registry o1.jobId = registryGet o1.registry o1.jobId ∧
    registryGet o1.registry o1.jobId = some o1.job ∧
    registryGet o2.registry o2.jobId = some o2.job := by
  unfold convertRoute at ho1 ho2
  by_cases h1 : req1.fileUploaded = false
  · rw [if_pos h1] at ho1
    exact absurd ho1 (by simp)
  · rw [if_neg h1] at ho1
    by_cases h2 : req2.fileUploaded = false
    · rw [if_pos h2] at ho2
      exact absurd ho2 (by simp)
    · rw [if_neg h2] at ho2
      have e1 := Option.some.inj ho1
      subst e1
      have e2 := Option.some.inj ho2
      subst e2
      exact ⟨hne, registryGet_insert_ne _ _ hne _ _,
        registryGet_insert_self _ _ _, registryGet_insert_self _ _ _⟩

/-- C2 witness for the amended claim: two distinct truncated draws. -/
theorem jobIds_distinct_witness :
    c2outA.jobId ≠ c2outB.jobId ∧
    registryGet c2outB.registry c2outA.jobId = registryGet c2outA.registry c2outA.jobId ∧
    registryGet c2outA.registry c2outA.jobId = some c2outA.job ∧
    registryGet c2outB.registry c2outB.jobId = some c2outB.job :=
  jobIds_distinct_of_draws_distinct c2req1 c2req2 "9f8e7d6c-1111" "12345678-2222"
    0 5 [] c2outA c2outB (by decide) rfl rfl

/-- C4: at every observable point of a job's lifecycle, `completedAt` is
present exactly when the status is `completed`; in particular a job that
terminates in the error state leaves `completedAt` absent. -/
theorem completedAt_iff_completed (env : ConvEnv) (a b c : String)
    (p : Option String) (o : ConvOptions) (u : String) (t : Int) (r : JobRecord)
    (hr : r ∈ conversionTrace env (mkConversionJob a b c p o u t)) :
    r.completedAt.isSome = true ↔ r.status = Status.completed := by
  set j0 := mkConversionJob a b c p o u t with hj0
  have h0c : j0.completedAt = none := mk_completedAt a b c p o u t
  have h0s : j0.status = Status.pending := mk_status a b c p o u t
  clear hj0
  unfold conversionTrace at hr
  simp only [List.mem_cons] at hr
  rcases hr with rfl | rfl | hr
  · simp [h0c, h0s]
  · simp [startStep, h0c]
  · split at hr
    · simp only [List.mem_cons, List.not_mem_nil, or_false] at hr
      subst hr
      simp [errStep, startStep, h0c]
    · simp only [List.mem_cons] at hr
      rcases hr with rfl | hr
      · simp [detectStep, startStep, h0c]
      · split at hr
        · simp only [List.mem_cons, List.not_mem_nil, or_false] at hr
          subst hr
          simp [errStep, detectStep, startStep, h0c]
        · simp only [List.mem_cons] at hr
          rcases hr with rfl | rfl | hr
          · simp [prepStep, detectStep, startStep, h0c]
          · simp [spawnStep, prepStep, detectStep, startStep, h0c]
          · have hdca : ((runChunks (spawnStep (prepStep (detectStep (startStep j0))))
                "" env.chunks).2).completedAt = none := by
              rw [runChunks_snd_completedAt]
              simp [spawnStep, prepStep, detectStep, startStep, h0c]
            have hdst : ((runChunks (spawnStep (prepStep (detectStep (startStep j0))))
                "" env.chunks).2).status = Status.processing := by
              rw [runChunks_snd_status]
              simp [spawnStep, prepStep, detectStep, startStep]
            rcases List.mem_append.mp hr with hr | hr
            · have hst := runChunks_mem_status _ _ _ _ hr
              have hca := runChunks_mem_completedAt _ _ _ _ hr
              rw [hca, hst]
              simp [spawnStep, prepStep, detectStep, startStep, h0c]
            · split at hr
              · simp only [List.mem_cons, List.not_mem_nil, or_false] at hr
                subst hr
                simp [errStep, hdca]
              · split at hr
                · simp only [List.mem_cons, List.not_mem_nil, or_false] at hr
                  subst hr
                  simp [errStep, hdca]
                · simp only [List.mem_cons] at hr
                  rcases hr with rfl | hr
                  · simp [finalizeStep, hdca, hdst]
                  · split at hr
                    · simp only [List.mem_cons, List.not_mem_nil, or_false] at hr
                      subst hr
                      simp [errStep, finalizeStep, hdca]
                    · simp only [List.mem_cons, List.not_mem_nil, or_false] at hr
                      subst hr
                      simp [completeStep]

/-- C4 witness: the states of a failing run (missing input). -/
theorem completedAt_iff_completed_witness :
    errStep "OSM file not found" (startStep sampleJob) ∈
      conversionTrace envNoInput sampleJob ∧
    ((errStep "OSM file not found" (startStep sampleJob)).completedAt.isSome = true ↔
      (errStep "OSM file not found" (startStep sampleJob)).status = Status.completed) :=
  ⟨by decide,
    completedAt_iff_completed envNoInput "a1b2c3d4" "map.osm" "map_converted.dxf"
      none { planType := "key-plan", projection := "EPSG:3857" } "Adip" 0 _ (by decide)⟩

/-- The task always ends in one of the two terminal outcomes, with every
failure captured as data in the record. -/
theorem final_terminal (env : ConvEnv) (j0 : JobRecord) :
    (performConversion env j0).status = Status.completed ∨
      ((performConversion env j0).status = Status.error ∧
       (performConversion env j0).errorMessage ≠ none ∧
       (performConversion env j0).progress = 0) := by
  unfold performConversion
  split
  · right
    simp [errStep]
  · split
    · right
      simp [errStep]
    · split
      · right
        simp [errStep]
      · split
        · right
          simp [errStep]
        · split
          · right
            simp [errStep]
          · left
            simp [completeStep]

/-- Any state of the trace carrying status `error` is the task's final
state: the task stops at the first failure, no retry follows. -/
theorem error_is_last (env : ConvEnv) (j0 : JobRecord)
    (h0s : j0.status = Status.pending) :
    ∀ r ∈ conversionTrace env j0, r.status = Status.error →
      r = performConversion env j0 := by
  intro r hr hrs
  unfold conversionTrace at hr
  unfold performConversion
  simp only [List.mem_cons] at hr
  rcases hr with rfl | rfl | hr
  · rw [h0s] at hrs
    exact absurd hrs (by decide)
  · simp [startStep] at hrs
  · by_cases h1 : env.inputExists = false
    · rw [if_pos h1] at hr
      rw [if_pos h1]
      simp only [List.mem_cons, List.not_mem_nil, or_false] at hr
      subst hr
      rfl
    · rw [if_neg h1] at hr
      rw [if_neg h1]
      simp only [List.mem_cons] at hr
      rcases hr with rfl | hr
      · simp [detectStep, startStep] at hrs
      · cases hd : detectPythonCommand env.probe with
        | none =>
            simp only [hd] at hr ⊢
            simp only [List.mem_cons, List.not_mem_nil, or_false] at hr
            subst hr
            rfl
        | some cmd =>
            simp only [hd] at hr ⊢
            simp only [List.mem_cons] at hr
            rcases hr with rfl | rfl | hr
            · simp [prepStep, detectStep, startStep] at hrs
            · simp [spawnStep, prepStep, detectStep, startStep] at hrs
            · rcases List.mem_append.mp hr with hr | hr
              · rw [runChunks_mem_status _ _ _ _ hr] at hrs
                simp [spawnStep, prepStep, detectStep, startStep] at hrs
              · cases he : env.exitEvent with
                | launchFailed m =>
                    simp only [he] at hr ⊢
                    simp only [List.mem_cons, List.not_mem_nil, or_false] at hr
                    subst hr
                    rfl
                | exited code =>
                    simp only [he] at hr ⊢
                    by_cases hc : code ≠ 0
                    · rw [if_pos hc] at hr
                      rw [if_pos hc]
                      simp only [List.mem_cons, List.not_mem_nil, or_false] at hr
                      subst hr
                      rfl
                    · rw [if_neg hc] at hr
                      rw [if_neg hc]
                      simp only [List.mem_cons] at hr
                      rcases hr with rfl | hr
                      · simp [finalizeStep, runChunks_snd_status, spawnStep,
                          prepStep, detectStep, startStep] at hrs
                      · by_cases ho : env.outputExists = false
                        · rw [if_pos ho] at hr
                          rw [if_pos ho]
                          simp only [List.mem_cons, List.not_mem_nil, or_false] at hr
                          subst hr
                          rfl
                        · rw [if_neg ho] at hr
                          rw [if_neg ho]
                          simp only [List.mem_cons, List.not_mem_nil, or_false] at hr
                          subst hr
                          simp [completeStep] at hrs

/-- C5: every failure inside the asynchronous task (missing input, no
interpreter, launch failure, non-zero exit, missing output artifact) is
captured into the job record — the final state is `completed` or `error`
with `errorMessage` set and progress reset to 0 — and the task stops
there: any observable error state is the task's final state.  No
exception crosses the asynchronous boundary: `performConversion` is a
total function of the environment. -/
theorem error_capture (env : ConvEnv) (a b c : String) (p : Option String)
    (o : ConvOptions) (u : String) (t : Int) (j0 fin : JobRecord)
    (hj0 : j0 = mkConversionJob a b c p o u t)
    (hfin : fin = performConversion env j0) :
    (fin.status = Status.completed ∨
      (fin.status = Status.error ∧ fin.errorMessage ≠ none ∧ fin.progress = 0)) ∧
    (∀ r ∈ conversionTrace env j0, r.status = Status.error → r = fin) := by
  subst hfin
  refine ⟨final_terminal env j0, error_is_last env j0 ?_⟩
  rw [hj0]
  exact mk_status a b c p o u t

/-- C5 witness: a run with exit code 1 and stderr "bad geometry" ends in
a captured error. -/
theorem error_capture_witness :
    (performConversion envExitFail sampleJob).status = Status.error ∧
    (performConversion envExitFail sampleJob).errorMessage ≠ none ∧
    (performConversion envExitFail sampleJob).progress = 0 := by
  have h := (error_capture envExitFail "a1b2c3d4" "map.osm" "map_converted.dxf" none
    { planType := "key-plan", projection := "EPSG:3857" } "Adip" 0 sampleJob
    (performConversion envExitFail sampleJob) rfl rfl).1
  rcases h with h | h
  · exact absurd h (by decide)
  · exact h

/-- C9: when the process exits 0 and the output artifact exists but the
statistics side-file is malformed, the job still completes — status
`completed`, progress 100, `completedAt` set — with only the derived
fields (file size, plan type, projection) in the stats mapping. -/
theorem malformed_stats_tolerated (env : ConvEnv) (a b c : String)
    (p : Option String) (o : ConvOptions) (u : String) (t : Int) (fin : JobRecord)
    (hfin : fin = performConversion env (mkConversionJob a b c p o u t))
    (h1 : env.inputExists = true)
    (h2 : (detectPythonCommand env.probe).isSome = true)
    (h3 : env.exitEvent = ExitEvent.exited 0)
    (h4 : env.outputExists = true)
    (h5 : env.statsFile = StatsFileState.malformed) :
    fin.status = Status.completed ∧
    fin.completedAt = some env.now ∧
    fin.progress = 100 ∧
    fin.errorMessage = none ∧
    fin.stats = [("fileSize", toString env.outputFileSize),
      ("planType", fin.planType), ("projection", fin.projection)] := by
  subst hfin
  unfold performConversion
  rw [if_neg (by simp [h1])]
  obtain ⟨cmd, hd⟩ := Option.isSome_iff_exists.mp h2
  simp only [hd, h3]
  rw [if_neg (by simp)]
  rw [if_neg (by simp [h4])]
  simp [completeStep, finalizeStep, h5, parsedStats, runChunks_snd_errorMessage,
    runChunks_snd_planType, runChunks_snd_projection, spawnStep, prepStep,
    detectStep, startStep, mk_errorMessage]

/-- C9 witness: a successful run with a malformed stats file. -/
theorem malformed_stats_tolerated_witness :
    (performConversion envStatsBad sampleJob).status = Status.completed ∧
    (performConversion envStatsBad sampleJob).completedAt = some envStatsBad.now ∧
    (performConversion envStatsBad sampleJob).progress = 100 ∧
    (performConversion envStatsBad sampleJob).errorMessage = none ∧
    (performConversion envStatsBad sampleJob).stats =
      [("fileSize", toString envStatsBad.outputFileSize),
       ("planType", (performConversion envStatsBad sampleJob).planType),
       ("projection", (performConversion envStatsBad sampleJob).projection)] :=
  malformed_stats_tolerated envStatsBad "a1b2c3d4" "map.osm" "map_converted.dxf"
    none { planType := "key-plan", projection := "EPSG:3857" } "Adip" 0
    (performConversion envStatsBad sampleJob) rfl rfl (by decide) rfl rfl rfl

/-- The fully elaborated form of `conversionTrace` (definitional). -/
theorem conversionTrace_eq (env : ConvEnv) (j0 : JobRecord) :
    conversionTrace env j0 =
      j0 :: startStep j0 ::
        (if env.inputExists = false then
          [errStep "OSM file not found" (startStep j0)]
        else
          detectStep (startStep j0) ::
            (match detectPythonCommand env.probe with
            | none =>
                [errStep "Python not found. Please install Python 3.x"
                  (detectStep (startStep j0))]
            | some _ =>
                prepStep (detectStep (startStep j0)) ::
                  spawnStep (prepStep (detectStep (startStep j0))) ::
                    ((runChunks (spawnStep (prepStep (detectStep (startStep j0))))
                        "" env.chunks).1 ++
                      (match env.exitEvent with
                      | ExitEvent.launchFailed m =>
                          [errStep ("Failed to start Python process: " ++ m)
                            ((runChunks (spawnStep (prepStep (detectStep (startStep j0))))
                              "" env.chunks).2)]
                      | ExitEvent.exited code =>
                          if code ≠ 0 then
                            [errStep ("Python script failed with code " ++ toString code ++
                                ": " ++ env.stderrText)
                              ((runChunks (spawnStep (prepStep (detectStep (startStep j0))))
                                "" env.chunks).2)]
                          else
                            finalizeStep ((runChunks (spawnStep (prepStep
                                (detectStep (startStep j0)))) "" env.chunks).2) ::
                              (if env.outputExists = false then
                                [errStep "DXF output file was not created"
                                  (finalizeStep ((runChunks (spawnStep (prepStep
                                    (detectStep (startStep j0)))) "" env.chunks).2))]
                              else
                                [completeStep env (finalizeStep ((runChunks (spawnStep
                                  (prepStep (detectStep (startStep j0)))) ""
                                  env.chunks).2))]))))) :=
  rfl

/-- C3 counterexample: feeding "Processing 12 nodes" and then
" Parsing OSM data" makes progress go 65 then 50 with no error involved:
progress is NOT non-decreasing over the processing phase for every chunk
sequence. -/
theorem progress_monotone_cex :
    (conversionTrace envBadOrder sampleJob).map (fun r => r.progress) =
      [0, 10, 20, 30, 40, 65, 50, 95, 100] ∧
    (conversionTrace envBadOrder sampleJob).map (fun r => r.status) =
      [Status.pending, Status.processing, Status.processing, Status.processing,
        Status.processing, Status.processing, Status.processing, Status.processing,
        Status.completed] ∧
    ¬ ChainOk (conversionTrace envBadOrder sampleJob) := by
  decide

/-- C3 (amended): over every run whose cumulative outputs match milestones
in non-decreasing table order (in particular every run whose milestone
fragments appear in the natural order), each observable step of the
record either keeps progress non-decreasing with a non-error status, or
is the error transition, which resets progress to exactly 0. -/
theorem progress_monotone (env : ConvEnv) (a b c : String) (p : Option String)
    (o : ConvOptions) (u : String) (t : Int)
    (Hm : levelsMono (levF "" :: (cumulList "" env.chunks).map levF)) :
    ChainOk (conversionTrace env (mkConversionJob a b c p o u t)) := by
  have H : List.Chain' (· ≤ ·) (levF "" :: (cumulList "" env.chunks).map levF) :=
    (levelsMono_iff _).mp Hm
  rw [chainOk_iff]
  set j0 := mkConversionJob a b c p o u t with hj0
  have h0p : j0.progress = 0 := mk_progress a b c p o u t
  clear hj0
  rw [conversionTrace_eq]
  have step01 : StepOk j0 (startStep j0) :=
    Or.inr ⟨by simp [startStep], by simp [startStep, h0p]⟩
  have step12 : StepOk (startStep j0) (detectStep (startStep j0)) :=
    Or.inr ⟨by simp [detectStep, startStep], by simp [detectStep, startStep]⟩
  by_cases h1 : env.inputExists = false
  · rw [if_pos h1]
    exact List.chain'_cons.mpr ⟨step01,
      List.chain'_cons.mpr ⟨Or.inl ⟨rfl, rfl⟩, List.chain'_singleton _⟩⟩
  · rw [if_neg h1]
    cases hd : detectPythonCommand env.probe with
    | none =>
        simp only [hd]
        exact List.chain'_cons.mpr ⟨step01, List.chain'_cons.mpr ⟨step12,
          List.chain'_cons.mpr ⟨Or.inl ⟨rfl, rfl⟩, List.chain'_singleton _⟩⟩⟩
    | some cmd =>
        simp only [hd]
        set j4 := spawnStep (prepStep (detectStep (startStep j0))) with hj4
        set D := (runChunks j4 "" env.chunks).1 with hD
        set jc := (runChunks j4 "" env.chunks).2 with hjc
        have hj4s : j4.status = Status.processing := by
          rw [hj4]
          rfl
        have hj4p : j4.progress = 40 := by
          rw [hj4]
          rfl
        obtain ⟨hcD, hcp⟩ :=
          runChunks_chain env.chunks "" j4 hj4s (by rw [hj4p, levF_empty]) H
        have hjcs : jc.status = Status.processing := by
          rw [hjc, runChunks_snd_status]
          exact hj4s
        have hjcp : jc.progress = levF (lastCumul "" env.chunks) := hcp
        have hjc95 : jc.progress ≤ 95 := by
          rw [hjcp]
          exact le_trans (levF_le _) (by omega)
        have assemble : ∀ T : List JobRecord, List.Chain' StepOk T →
            (∀ y ∈ T.head?, StepOk jc y) →
            List.Chain' StepOk (j0 :: startStep j0 :: detectStep (startStep j0) ::
              prepStep (detectStep (startStep j0)) :: j4 :: (D ++ T)) := by
          intro T hT hlink
          have hsplit : (j0 :: startStep j0 :: detectStep (startStep j0) ::
              prepStep (detectStep (startStep j0)) :: j4 :: (D ++ T)) =
              [j0, startStep j0, detectStep (startStep j0),
                prepStep (detectStep (startStep j0))] ++ ((j4 :: D) ++ T) := by
            simp
          rw [hsplit]
          have chainA : List.Chain' StepOk [j0, startStep j0,
              detectStep (startStep j0), prepStep (detectStep (startStep j0))] :=
            List.chain'_cons.mpr ⟨step01, List.chain'_cons.mpr ⟨step12,
              List.chain'_cons.mpr ⟨Or.inr ⟨by simp [prepStep, detectStep, startStep],
                by simp [prepStep, detectStep, startStep]⟩,
                List.chain'_singleton _⟩⟩⟩
          refine List.Chain'.append chainA (List.Chain'.append hcD hT ?_) ?_
          · intro x hx y hy
            have hxl : (j4 :: D).getLast? = some jc :=
              runChunks_cons_getLast env.chunks "" j4
            rw [hxl] at hx
            simp only [Option.mem_def, Option.some.injEq] at hx
            subst hx
            exact hlink y hy
          · intro x hx y hy
            have hx4 : ([j0, startStep j0, detectStep (startStep j0),
                prepStep (detectStep (startStep j0))].getLast?) =
                some (prepStep (detectStep (startStep j0))) := rfl
            have hy4 : ((j4 :: D) ++ T).head? = some j4 := rfl
            rw [hx4] at hx
            rw [hy4] at hy
            simp only [Option.mem_def, Option.some.injEq] at hx hy
            subst hx
            subst hy
            exact Or.inr ⟨by simp [hj4s],
              by simp [prepStep, detectStep, startStep, hj4p]⟩
        cases he : env.exitEvent with
        | launchFailed m =>
            simp only [he]
            refine assemble _ (List.chain'_singleton _) ?_
            intro y hy
            simp only [List.head?_cons, Option.mem_def, Option.some.injEq] at hy
            subst hy
            exact Or.inl ⟨rfl, rfl⟩
        | exited code =>
            simp only [he]
            by_cases hcode : code ≠ 0
            · rw [if_pos hcode]
              refine assemble _ (List.chain'_singleton _) ?_
              intro y hy
              simp only [List.head?_cons, Option.mem_def, Option.some.injEq] at hy
              subst hy
              exact Or.inl ⟨rfl, rfl⟩
            · rw [if_neg hcode]
              by_cases ho : env.outputExists = false
              · rw [if_pos ho]
                refine assemble _ ?_ ?_
                · exact List.chain'_cons.mpr ⟨Or.inl ⟨rfl, rfl⟩,
                    List.chain'_singleton _⟩
                · intro y hy
                  simp only [List.head?_cons, Option.mem_def, Option.some.injEq] at hy
                  subst hy
                  refine Or.inr ⟨by simp [finalizeStep, hjcs], ?_⟩
                  simp only [finalizeStep]
                  exact hjc95
              · rw [if_neg ho]
                refine assemble _ ?_ ?_
                · refine List.chain'_cons.mpr ⟨Or.inr ⟨by simp [completeStep], ?_⟩,
                    List.chain'_singleton _⟩
                  simp [completeStep, finalizeStep]
                · intro y hy
                  simp only [List.head?_cons, Option.mem_def, Option.some.injEq] at hy
                  subst hy
                  refine Or.inr ⟨by simp [finalizeStep, hjcs], ?_⟩
                  simp only [finalizeStep]
                  exact hjc95

/-- C3 witness: the natural-order run keeps the whole trace `StepOk`. -/
theorem progress_monotone_witness :
    ChainOk (conversionTrace envGood sampleJob) :=
  progress_monotone envGood "a1b2c3d4" "map.osm" "map_converted.dxf" none
    { planType := "key-plan", projection := "EPSG:3857" } "Adip" 0 (by decide)

end OsmConvert
